import Mathlib

/-
Verification development for the open-lambda worker handler core
(worker/handler/handler.go): the per-function Handler state machine
(RunStart, RunFinish), the HandlerSet registry (Get, Dump, killOrphans)
and the readiness-poll loop.

Modelling conventions (shallow embedding):
  - Collaborator calls (registry Pull, sandbox factory Create, sandbox
    State/Start/Unpause/Pause/Channel, pool-manager Provision, os.MkdirAll,
    os.Stat) are resolved by an explicit environment record `RunEnv` /
    `FinishEnv` supplying each result; errors produced by collaborators are
    `GoError.external`, errors the handler code builds itself with
    errors.New are `GoError.fromNew` with the literal message from the
    source.  These are distinct values, as in Go, where errors.New yields
    a fresh value never equal to a collaborator error.
  - os.Stat on the readiness marker is modelled as an existence check
    (true = file exists, false = the error satisfies os.IsNotExist).
  - Side effects (collaborator invocations, counter increments, LRU
    membership operations) are recorded in order in a list of `Ev` events
    returned alongside the new Handler value.
  - Mutex acquisition order in the orphan reaper is modelled separately as
    a list of `ReapAct` lock actions generated from the exact statement
    order of killOrphans.
  - Go map semantics: `h.handlers` maps names to possibly-nil pointers;
    both an absent key and a stored nil read back as nil, but a stored nil
    keeps its key visible to range loops.  We model the map as an
    association list over `Option Handler`.
-/

namespace OpenLambda

/-- Handler states from the worker/handler/state package (the package is
referenced by handler.go but its file is not part of the handler core;
the constructor set {Unitialized, Running, Paused, Stopped} is the one
named by the source and the spec, keeping the source spelling). -/
inductive HandlerState
  | Unitialized
  | Running
  | Paused
  | Stopped
deriving DecidableEq, Repr

/-- Go error values: collaborator errors are opaque external payloads;
errors.New calls in handler.go build fresh values from a message string. -/
inductive GoError
  | external (code : Nat)
  | fromNew (msg : String)
deriving DecidableEq, Repr

/-- The error built by errors.New at the readiness timeout
(the source message says 30s although the enforced bound is 45s; the spec
notes this as a documentation slip). -/
def initTimeoutErr : GoError :=
  .fromNew "handler server failed to initialize after 30s"

/-- The error built by errors.New when a pool manager is configured but the
sandbox is not a ContainerSandbox. -/
def notContainerErr : GoError :=
  .fromNew "forkenter only supported with ContainerSandbox"

/-- The Handler struct of handler.go.  The hset back pointer is dropped
(set membership is modelled on the HandlerSet side); the sandbox and the
fork-server binding are identifiers wrapped in Option (none = nil pointer);
lastPull keeps only whether the timestamp pointer is nil. -/
structure Handler where
  name : String
  sandbox : Option Nat
  lastPull : Bool
  state : HandlerState
  runners : Int
  code : List Nat
  codeDir : String
  pkgs : List String
  sandboxDir : String
  fs : Option Nat
  usage : Nat
deriving DecidableEq, Repr

/-- Observable events of one RunStart / RunFinish call, in program order:
collaborator invocations, counter increments, LRU operations, the poll
loop's stat probes, and the admission point (state=Running, runners+1). -/
inductive Ev
  | pull
  | mkdirEv
  | sbCreate
  | sbStateEv
  | sbStart
  | sbUnpause
  | sbPause
  | provisionEv
  | hhit
  | ihit
  | missEv
  | sockStat
  | sleepEv
  | lruRemoveEv (n : String)
  | lruAddEv (n : String)
  | admitEv
deriving DecidableEq, Repr

/-- Result of a RunStart call: the channel on success, a surfaced error,
or hang when the readiness poll loop never exits within the modelled fuel. -/
inductive RunOutcome
  | ok (ch : Nat)
  | err (e : GoError)
  | hang
deriving DecidableEq, Repr

/-- Control flow out of an intermediate step of RunStart. -/
inductive Flow
  | ok
  | fail (e : GoError)
  | hang
deriving DecidableEq, Repr

/-- Intermediate step output: updated handler, flow, events in order. -/
structure StepOut where
  h : Handler
  flow : Flow
  evs : List Ev
deriving DecidableEq, Repr

/-- Environment of one RunStart call: the results each collaborator call
would return, plus the stat observations and elapsed seconds of the
readiness poll loop (elapsed in seconds as a rational, standing for the
float64 of time.Since(start).Seconds()). -/
structure RunEnv where
  pullRes : Except Nat (String × List String)
  mkdirRes : Option Nat
  createRes : Except Nat Nat
  stateRes : Nat → HandlerState × Option Nat
  startRes : Option Nat
  unpauseRes : Option Nat
  poolConfigured : Bool
  isContainer : Bool
  provisionRes : Except Nat (Nat × Bool)
  statEx : String → Nat → Bool
  elapsed : Nat → ℚ
  sockFuel : Nat
  channelRes : Nat → Except Nat Nat

/-- Environment of one RunFinish call: the sandbox Pause result
(none = success, some payload = error, which the code only logs). -/
structure FinishEnv where
  pauseRes : Option Nat

/-- The Handler value built by HandlerSet.Get when the name is absent
(handler.go lines 109-117): only name, hset, state, runners, pkgs and
sandboxDir are set, all other fields take their zero value. -/
def initialHandler (name workerDir : String) : Handler :=
  { name := name
    sandbox := none
    lastPull := false
    state := .Unitialized
    runners := 0
    code := []
    codeDir := ""
    pkgs := []
    sandboxDir := workerDir ++ "/handlers/" ++ name ++ "/sandbox"
    fs := none
    usage := 0 }

/-- The readiness marker path, sockPath of handler.go line 226:
fmt.Sprintf("%s/ol.sock", h.sandboxDir). -/
def sockPath (sandboxDir : String) : String := sandboxDir ++ "/ol.sock"

/-- One poll iteration of handler.go lines 229-235, desugared:
for ok := true; ok; ok = os.IsNotExist(err) runs the body once
unconditionally, then repeats while the stat error is IsNotExist.
Each body: stat the marker, then return the timeout error when
time.Since(start).Seconds() > 45.  `ex i` tells whether the marker exists
at probe i, `el i` the elapsed seconds at probe i.  Returns the decision
(none when the fuel runs out, modelling an unbounded loop) together with
the number of stat probes performed. -/
def sockLoop (ex : Nat → Bool) (el : Nat → ℚ) : Nat → Nat → Option Bool × Nat
  | 0, _ => (none, 0)
  | fuel + 1, i =>
    if 45 < el i then (some false, 1)
    else if ex i then (some true, 1)
    else
      let r := sockLoop ex el fuel (i + 1)
      (r.1, r.2 + 1)

/-- Step 1 of RunStart (handler.go lines 168-179): pull the code when
lastPull is nil; a pull error is returned unchanged, success records the
code directory, package list and timestamp. -/
def ensureCode (env : RunEnv) (h : Handler) : StepOut :=
  if h.lastPull then { h := h, flow := .ok, evs := [] }
  else
    match env.pullRes with
    | .error p => { h := h, flow := .fail (.external p), evs := [.pull] }
    | .ok (cd, pk) =>
      { h := { h with lastPull := true, codeDir := cd, pkgs := pk }
        flow := .ok
        evs := [.pull] }

/-- Sequencing of fallible steps: run the continuation only when the
first step flowed through, accumulating events in program order. -/
def andThen (s : StepOut) (k : Handler → StepOut) : StepOut :=
  match s.flow with
  | .ok => { h := (k s.h).h, flow := (k s.h).flow, evs := s.evs ++ (k s.h).evs }
  | _ => s

/-- os.MkdirAll(h.sandboxDir, 0666) of handler.go line 183: a failure is
returned to the caller unchanged. -/
def mkdirStep (env : RunEnv) (h : Handler) : StepOut :=
  match env.mkdirRes with
  | some p => { h := h, flow := .fail (.external p), evs := [.mkdirEv] }
  | none => { h := h, flow := .ok, evs := [.mkdirEv] }

/-- Factory Create and the sandbox State read (handler.go lines 187-195):
on Create success the sandbox is recorded before State is called, and the
Go multiple assignment `h.state, err = sandbox.State()` stores the
returned state value even when the call errors. -/
def createStep (env : RunEnv) (h : Handler) : StepOut :=
  match env.createRes with
  | .error p => { h := h, flow := .fail (.external p), evs := [.sbCreate] }
  | .ok s =>
    let h2 := { h with sandbox := some s, state := (env.stateRes s).1 }
    match (env.stateRes s).2 with
    | some p => { h := h2, flow := .fail (.external p), evs := [.sbCreate, .sbStateEv] }
    | none => { h := h2, flow := .ok, evs := [.sbCreate, .sbStateEv] }

/-- Bringing a fresh sandbox to a running runtime (handler.go lines
197-206): Start when the reported state is Stopped, Unpause when Paused,
nothing otherwise. -/
def bringRunning (env : RunEnv) (h : Handler) : StepOut :=
  if h.state = .Stopped then
    match env.startRes with
    | some p => { h := h, flow := .fail (.external p), evs := [.sbStart] }
    | none => { h := h, flow := .ok, evs := [.sbStart] }
  else if h.state = .Paused then
    match env.unpauseRes with
    | some p => { h := h, flow := .fail (.external p), evs := [.sbUnpause] }
    | none => { h := h, flow := .ok, evs := [.sbUnpause] }
  else { h := h, flow := .ok, evs := [] }

/-- Pool-manager provisioning and the hit and miss counters (handler.go
lines 208-224): when a pool manager is configured the sandbox must be a
ContainerSandbox, then Provision records the fork-server binding and
whether the pool was hit; the hit or miss counter is bumped afterwards in
every case, with hit = false when no pool manager is configured. -/
def poolStep (env : RunEnv) (h : Handler) : StepOut :=
  if env.poolConfigured then
    if env.isContainer then
      match env.provisionRes with
      | .error p => { h := h, flow := .fail (.external p), evs := [.provisionEv] }
      | .ok (fsr, hit) =>
        { h := { h with fs := some fsr }
          flow := .ok
          evs := [.provisionEv] ++ (if hit then [Ev.ihit] else [Ev.missEv]) }
    else { h := h, flow := .fail notContainerErr, evs := [] }
  else { h := h, flow := .ok, evs := [Ev.missEv] }

/-- The readiness poll loop (handler.go lines 226-235) as a step. -/
def sockStep (env : RunEnv) (h : Handler) : StepOut :=
  let r := sockLoop (env.statEx (sockPath h.sandboxDir)) env.elapsed env.sockFuel 0
  let evs := List.replicate r.2 Ev.sockStat
  match r.1 with
  | none => { h := h, flow := .hang, evs := evs }
  | some false => { h := h, flow := .fail initTimeoutErr, evs := evs }
  | some true => { h := h, flow := .ok, evs := evs }

/-- The sandbox-creation branch of RunStart (handler.go lines 182-235):
mkdir, factory Create and State read, Start or Unpause, pool-manager
provisioning with the hit or miss counter, then the readiness poll loop. -/
def createPath (env : RunEnv) (h : Handler) : StepOut :=
  andThen (mkdirStep env h) fun h =>
  andThen (createStep env h) fun h =>
  andThen (bringRunning env h) fun h =>
  andThen (poolStep env h) fun h =>
  sockStep env h

/-- Step 2 of RunStart (handler.go lines 182-245): create the sandbox when
nil, else unpause a Paused sandbox (hit counter, Unpause, LRU remove),
else only bump the hit counter. -/
def ensureSandboxReady (env : RunEnv) (h : Handler) : StepOut :=
  match h.sandbox with
  | none => createPath env h
  | some _ =>
    if h.state = .Paused then
      match env.unpauseRes with
      | some p => { h := h, flow := .fail (.external p), evs := [.hhit, .sbUnpause] }
      | none =>
        { h := h, flow := .ok, evs := [.hhit, .sbUnpause, .lruRemoveEv h.name] }
    else { h := h, flow := .ok, evs := [.hhit] }

/-- Handler.RunStart (handler.go lines 164-252): code fetch, sandbox
creation or unpause, then admission (state=Running, runners+1) and the
sandbox Channel call, whose pair result is returned directly. -/
def Handler.RunStart (h : Handler) (env : RunEnv) : RunOutcome × Handler × List Ev :=
  let s1 := ensureCode env h
  match s1.flow with
  | .fail e => (.err e, s1.h, s1.evs)
  | .hang => (.hang, s1.h, s1.evs)
  | .ok =>
    let s2 := ensureSandboxReady env s1.h
    match s2.flow with
    | .fail e => (.err e, s2.h, s1.evs ++ s2.evs)
    | .hang => (.hang, s2.h, s1.evs ++ s2.evs)
    | .ok =>
      let h2 := { s2.h with state := .Running, runners := s2.h.runners + 1 }
      let evs := s1.evs ++ s2.evs ++ [Ev.admitEv]
      match h2.sandbox with
      | none => (.err (.fromNew "nil sandbox dereference"), h2, evs)
      | some s =>
        match env.channelRes s with
        | .error p => (.err (.external p), h2, evs)
        | .ok c => (.ok c, h2, evs)

/-- Handler.RunFinish (handler.go lines 257-274): decrement runners; when
the count reaches zero, call sandbox.Pause (the error is only logged), set
state to Paused and add the handler to the LRU.  Returns none when the
code would dereference a nil sandbox pointer. -/
def Handler.RunFinish (h : Handler) (_env : FinishEnv) : Option (Handler × List Ev) :=
  let h1 := { h with runners := h.runners - 1 }
  if h1.runners = 0 then
    match h1.sandbox with
    | none => none
    | some _ =>
      some ({ h1 with state := .Paused }, [Ev.sbPause, Ev.lruAddEv h1.name])
  else
    some (h1, [])

/-- Handler.nuke (handler.go lines 277-281) as its collaborator-call
sequence: unconditional Unpause, Stop, Remove, results ignored. -/
def Handler.nukeCalls : List String := ["Unpause", "Stop", "Remove"]

/-- Handler.Sandbox (handler.go lines 284-286): read-only accessor. -/
def Handler.Sandbox (h : Handler) : Option Nat := h.sandbox

/-! The HandlerSet registry.  The Go map from names to Handler pointers is
an association list over `Option Handler`: a stored `none` is the nil
pointer the reaper writes into a slot, distinct from an absent key for
range loops although indistinguishable for indexing. -/

/-- Reading `h.handlers[name]`: Go returns the zero value (nil) both when
the key is absent and when nil was stored. -/
def mapGet (m : List (String × Option Handler)) (k : String) : Option Handler :=
  match m.lookup k with
  | none => none
  | some v => v

/-- Writing `h.handlers[k] = v`: replace the binding when the key exists,
append it otherwise. -/
def mapInsert (m : List (String × Option Handler)) (k : String) (v : Option Handler) :
    List (String × Option Handler) :=
  match m with
  | [] => [(k, v)]
  | (k', v') :: t => if k' = k then (k, v) :: t else (k', v') :: mapInsert t k v

/-- The HandlerSet struct, keeping the fields the modelled operations
read: the handlers map and the worker directory.  Collaborator references
and counters are resolved through RunEnv and the event lists. -/
structure HandlerSet where
  handlers : List (String × Option Handler)
  workerDir : String
deriving DecidableEq, Repr

/-- HandlerSet.Get (handler.go lines 103-122): a single get-or-insert
under the registry lock, performed here as one pure step on the registry
state.  A nil read (absent key or reaper-cleared slot) creates a fresh
Uninitialized Handler and stores it. -/
def HandlerSet.Get (hs : HandlerSet) (name : String) : Handler × HandlerSet :=
  match mapGet hs.handlers name with
  | some handler => (handler, hs)
  | none =>
    let handler := initialHandler name hs.workerDir
    (handler, { hs with handlers := mapInsert hs.handlers name (some handler) })

/-- The registry write of killOrphans line 134, `h.handlers[handler.name] = nil`:
the key keeps its slot, now holding a nil pointer (not a deletion). -/
def reapUnlink (m : List (String × Option Handler)) (n : String) :
    List (String × Option Handler) :=
  mapInsert m n none

/-- Whether every value a range loop over the map visits is a non-nil
pointer.  HandlerSet.Dump (lines 156-158) reads v.state.String() and the
reaper scan (lines 130-144) calls handler.mutex.Lock() on every ranged
value, so a nil value makes either dereference a nil pointer. -/
def rangeValuesNonNil (m : List (String × Option Handler)) : Bool :=
  m.all fun kv => kv.2.isSome

/-! The orphan reaper's lock behaviour (killOrphans, handler.go lines
124-148), modelled as the exact sequence of sleep / lock / unlock /
registry-write / drain-wait actions one scan performs over a snapshot of
the handler list. -/

/-- Lock-relevant actions of the reaper. -/
inductive ReapAct
  | sleepR
  | lockReg
  | unlockReg
  | clearSlot (n : String)
  | lockH (n : String)
  | unlockH (n : String)
  | drainWait (n : String)
  | spawnNuke (n : String)
deriving DecidableEq, Repr

/-- The loop body of lines 130-145 for one ranged handler: lock the
handler mutex; when it has a live sandbox and no fork-server binding,
lock the registry mutex again (line 133), nil the slot, unlock it, then
loop waiting for the runner count to drain (releasing only the handler
mutex while sleeping), and spawn nuke; finally unlock the handler mutex. -/
def scanHandlerActs (hd : Handler) : List ReapAct :=
  [ReapAct.lockH hd.name] ++
    (if hd.sandbox.isSome && hd.fs.isNone then
      [ReapAct.lockReg, ReapAct.clearSlot hd.name, ReapAct.unlockReg,
       ReapAct.drainWait hd.name, ReapAct.spawnNuke hd.name]
    else []) ++
    [ReapAct.unlockH hd.name]

/-- One scan iteration of the infinite for loop (lines 125-147): sleep
5ms, lock the registry mutex, range over the handlers.  The deferred
h.mutex.Unlock() of line 128 runs only when killOrphans returns, which
never happens, so no registry unlock is emitted at the end of a scan. -/
def killOrphansScan (hs : List Handler) : List ReapAct :=
  [ReapAct.sleepR, ReapAct.lockReg] ++ hs.flatMap scanHandlerActs

/-- Consecutive scan iterations of killOrphans over the given per-scan
handler snapshots. -/
def killOrphansLoop (scans : List (List Handler)) : List ReapAct :=
  scans.flatMap killOrphansScan

/-- Checks, along the action list with current registry-lock depth d, that
every registry Lock happens with the lock free (sync.Mutex is not
reentrant: a same-owner second Lock deadlocks). -/
def noReentrantRegFrom (d : Nat) : List ReapAct → Bool
  | [] => true
  | ReapAct.lockReg :: t => decide (d = 0) && noReentrantRegFrom (d + 1) t
  | ReapAct.unlockReg :: t => noReentrantRegFrom (d - 1) t
  | _ :: t => noReentrantRegFrom d t

/-- Checks that every blocking drain wait for a handler's runners happens
with the registry lock free. -/
def regFreeAtDrainFrom (d : Nat) : List ReapAct → Bool
  | [] => true
  | ReapAct.lockReg :: t => regFreeAtDrainFrom (d + 1) t
  | ReapAct.unlockReg :: t => regFreeAtDrainFrom (d - 1) t
  | ReapAct.drainWait _ :: t => decide (d = 0) && regFreeAtDrainFrom d t
  | _ :: t => regFreeAtDrainFrom d t

/-- Net registry-lock depth after the action list. -/
def regDepth (t : List ReapAct) : Nat :=
  t.foldl
    (fun d a =>
      match a with
      | ReapAct.lockReg => d + 1
      | ReapAct.unlockReg => d - 1
      | _ => d)
    0

/-- The registry lock is released by the end of the trace. -/
def regReleasedByEnd (t : List ReapAct) : Bool := decide (regDepth t = 0)

/-- The full lock discipline the spec demands of one scan: no reentrant
registry acquisition, lock released by the end of the scan, and no drain
wait while the registry lock is held. -/
def scanLockDiscipline (t : List ReapAct) : Bool :=
  noReentrantRegFrom 0 t && regReleasedByEnd t && regFreeAtDrainFrom 0 t

/-! The HandlerLRU operations live in a separate file of the repository
that is not part of the sources under verification; the claims only need
their membership effect, modelled from the spec. -/

/-- Modelled from the spec: `HandlerLRU.Add` (handler_lru.go, not in the
provided sources) inserts or moves the handler to the most-recently-used
position of the recency list. -/
def lruAdd (l : List String) (n : String) : List String :=
  n :: l.filter fun x => x ≠ n

/-- Modelled from the spec: `HandlerLRU.Remove` (handler_lru.go, not in
the provided sources) removes the handler from the cache if present. -/
def lruRemove (l : List String) (n : String) : List String :=
  l.filter fun x => x ≠ n

/-- Whether two consecutive stat probes of the readiness loop occur with
no sleep (processor yield) between them: the spin the spec forbids. -/
def sleepBetweenStats : List Ev → Bool
  | Ev.sockStat :: Ev.sockStat :: _ => false
  | _ :: t => sleepBetweenStats t
  | [] => true

/-! Reachability of Handler states: starting from the Handler that
HandlerSet.Get builds, stepping by RunStart calls (successful or failed)
and by RunFinish calls each matched by a preceding successful RunStart.
The natural number counts the successful RunStart calls not yet matched
by a RunFinish, so the finish step demands a positive count. -/

inductive ReachableN : Handler → Nat → Prop
  | init (name workerDir : String) : ReachableN (initialHandler name workerDir) 0
  | startOk {h n env c h' evs} : ReachableN h n →
      Handler.RunStart h env = (.ok c, h', evs) → ReachableN h' (n + 1)
  | startErr {h n env e h' evs} : ReachableN h n →
      Handler.RunStart h env = (.err e, h', evs) → ReachableN h' n
  | finish {h n fenv h' evs} : ReachableN h (n + 1) →
      Handler.RunFinish h fenv = some (h', evs) → ReachableN h' n

/-- The inductive invariant carried by every reachable Handler: the
pending-match count bounds runners, runners never negative, a positive
runner count forces Running with a live sandbox, a live sandbox forces a
recorded pull, and a nil sandbox forces the Uninitialized state. -/
def InvN (h : Handler) (n : Nat) : Prop :=
  (n : Int) ≤ h.runners ∧ 0 ≤ h.runners ∧
  (0 < h.runners → h.state = .Running ∧ h.sandbox.isSome) ∧
  (h.sandbox.isSome → h.lastPull = true) ∧
  (h.sandbox = none → h.state = .Unitialized)

/-! Concrete fixtures used to evaluate the model on explicit inputs. -/

/-- A Handler whose code is already pulled but whose sandbox is nil:
RunStart on it takes the sandbox-creation path. -/
def hPulled : Handler :=
  { initialHandler "f" "/w" with lastPull := true, codeDir := "/code" }

/-- An orphan snapshot: a live sandbox with no fork-server binding, the
condition the reaper scan reacts to. -/
def orphanH : Handler :=
  { initialHandler "f" "/w" with sandbox := some 1, lastPull := true, state := .Paused }

/-- An environment in which every collaborator call succeeds and the
readiness marker is present at the first probe. -/
def envOk : RunEnv :=
  { pullRes := .ok ("/code", [])
    mkdirRes := none
    createRes := .ok 1
    stateRes := fun _ => (.Running, none)
    startRes := none
    unpauseRes := none
    poolConfigured := false
    isContainer := false
    provisionRes := .ok (0, false)
    statEx := fun _ _ => true
    elapsed := fun _ => 0
    sockFuel := 1
    channelRes := fun _ => .ok 7 }

/-- Like envOk but the readiness marker never appears: the first two
probes run within the bound, the third observes elapsed time past 45s. -/
def envSpin : RunEnv :=
  { envOk with
      statEx := fun _ _ => false
      elapsed := fun i => if i < 2 then 0 else 100
      sockFuel := 5 }

/-- Like envOk but the marker appears only at the third probe, with one
second of elapsed time per probe. -/
def envReady : RunEnv :=
  { envOk with
      statEx := fun _ i => decide (2 ≤ i)
      elapsed := fun i => (i : ℚ)
      sockFuel := 5 }

/-- Like envOk but the registry pull fails. -/
def envPullFail : RunEnv := { envOk with pullRes := .error 5 }

/-- The Handler produced by a first successful RunStart under envOk. -/
def hA : Handler :=
  { name := "f", sandbox := some 1, lastPull := true, state := .Running, runners := 1,
    code := [], codeDir := "/code", pkgs := [], sandboxDir := "/w/handlers/f/sandbox",
    fs := none, usage := 0 }

/-- The Handler after that RunStart's matching RunFinish: paused, idle. -/
def hP : Handler := { hA with runners := 0, state := .Paused }

/-! Characterization lemmas for the RunStart steps. -/

theorem ensureCode_spec (env : RunEnv) (h : Handler) :
    (ensureCode env h).h.runners = h.runners ∧
    (ensureCode env h).h.state = h.state ∧
    (ensureCode env h).h.sandbox = h.sandbox ∧
    (ensureCode env h).h.name = h.name ∧
    ((ensureCode env h).flow = .ok → (ensureCode env h).h.lastPull = true) ∧
    (∀ e, (ensureCode env h).flow = .fail e → (ensureCode env h).h = h) ∧
    (ensureCode env h).flow ≠ .hang := by
  unfold ensureCode
  split
  · simp_all
  · split <;> simp_all

theorem andThen_ok {s : StepOut} (k : Handler → StepOut) (hf : s.flow = .ok) :
    andThen s k = { h := (k s.h).h, flow := (k s.h).flow, evs := s.evs ++ (k s.h).evs } := by
  unfold andThen
  split <;> simp_all

theorem andThen_notok {s : StepOut} (k : Handler → StepOut) (hf : s.flow ≠ .ok) :
    andThen s k = s := by
  unfold andThen
  split <;> simp_all

theorem mkdirStep_h (env : RunEnv) (h : Handler) : (mkdirStep env h).h = h := by
  unfold mkdirStep
  split <;> rfl

theorem bringRunning_h (env : RunEnv) (h : Handler) : (bringRunning env h).h = h := by
  unfold bringRunning
  repeat' split
  all_goals rfl

theorem sockStep_h (env : RunEnv) (h : Handler) : (sockStep env h).h = h := by
  simp only [sockStep]
  split <;> rfl

theorem poolStep_fields (env : RunEnv) (h : Handler) :
    (poolStep env h).h.runners = h.runners ∧ (poolStep env h).h.lastPull = h.lastPull ∧
    (poolStep env h).h.name = h.name ∧ (poolStep env h).h.sandbox = h.sandbox ∧
    (poolStep env h).h.state = h.state := by
  unfold poolStep
  repeat' split
  all_goals simp_all

theorem createStep_fields (env : RunEnv) (h : Handler) :
    (createStep env h).h.runners = h.runners ∧ (createStep env h).h.lastPull = h.lastPull ∧
    (createStep env h).h.name = h.name := by
  unfold createStep
  repeat' split
  all_goals simp_all

theorem createStep_ok_sandbox (env : RunEnv) (h : Handler)
    (hf : (createStep env h).flow = .ok) : (createStep env h).h.sandbox.isSome := by
  unfold createStep at *
  repeat' split at hf
  all_goals simp_all

theorem createStep_sandbox_none (env : RunEnv) (h : Handler)
    (hs : (createStep env h).h.sandbox = none) : (createStep env h).h = h := by
  unfold createStep at *
  repeat' split at hs
  all_goals simp_all

theorem createStep_sandboxDir (env : RunEnv) (h : Handler) :
    (createStep env h).h.sandboxDir = h.sandboxDir := by
  unfold createStep
  repeat' split
  all_goals rfl

theorem createPath_spec (env : RunEnv) (h : Handler) :
    (createPath env h).h.runners = h.runners ∧
    (createPath env h).h.lastPull = h.lastPull ∧
    (createPath env h).h.name = h.name ∧
    ((createPath env h).h = h ∨ (createPath env h).h.sandbox.isSome) ∧
    ((createPath env h).flow = .ok → (createPath env h).h.sandbox.isSome) ∧
    ((createPath env h).h.sandbox = none → (createPath env h).h = h) := by
  unfold createPath
  by_cases f1 : (mkdirStep env h).flow = .ok
  · rw [andThen_ok _ f1, mkdirStep_h]
    by_cases f2 : (createStep env h).flow = .ok
    · rw [andThen_ok _ f2]
      have hsb := createStep_ok_sandbox env h f2
      have hne : (createStep env h).h.sandbox ≠ none := by
        intro hnone
        rw [hnone] at hsb
        simp at hsb
      obtain ⟨hr, hl, hn⟩ := createStep_fields env h
      by_cases f3 : (bringRunning env (createStep env h).h).flow = .ok
      · rw [andThen_ok _ f3, bringRunning_h]
        obtain ⟨pr, pl, pn, ps, _⟩ := poolStep_fields env (createStep env h).h
        have hpsb : (poolStep env (createStep env h).h).h.sandbox.isSome := by
          rw [ps]; exact hsb
        have hpne : (poolStep env (createStep env h).h).h.sandbox ≠ none := by
          rw [ps]; exact hne
        by_cases f4 : (poolStep env (createStep env h).h).flow = .ok
        · rw [andThen_ok _ f4, sockStep_h]
          exact ⟨pr.trans hr, pl.trans hl, pn.trans hn, Or.inr hpsb,
            fun _ => hpsb, fun hx => absurd hx hpne⟩
        · rw [andThen_notok _ f4]
          exact ⟨pr.trans hr, pl.trans hl, pn.trans hn, Or.inr hpsb,
            fun _ => hpsb, fun hx => absurd hx hpne⟩
      · rw [andThen_notok _ f3, bringRunning_h]
        exact ⟨hr, hl, hn, Or.inr hsb, fun _ => hsb, fun hx => absurd hx hne⟩
    · rw [andThen_notok _ f2]
      refine ⟨createStep_fields env h |>.1, createStep_fields env h |>.2.1,
        createStep_fields env h |>.2.2, ?_, ?_, ?_⟩
      · by_cases hs : (createStep env h).h.sandbox = none
        · exact Or.inl (createStep_sandbox_none env h hs)
        · exact Or.inr (Option.isSome_iff_ne_none.mpr hs)
      · intro hf
        exact absurd hf f2
      · exact createStep_sandbox_none env h
  · rw [andThen_notok _ f1, mkdirStep_h]
    simp_all

theorem ensureSandboxReady_spec (env : RunEnv) (h : Handler) :
    (ensureSandboxReady env h).h.runners = h.runners ∧
    (ensureSandboxReady env h).h.lastPull = h.lastPull ∧
    (ensureSandboxReady env h).h.name = h.name ∧
    ((ensureSandboxReady env h).h = h ∨ (ensureSandboxReady env h).h.sandbox.isSome) ∧
    ((ensureSandboxReady env h).flow = .ok → (ensureSandboxReady env h).h.sandbox.isSome) ∧
    ((ensureSandboxReady env h).h.sandbox = none → (ensureSandboxReady env h).h = h) := by
  unfold ensureSandboxReady
  split
  · exact createPath_spec env h
  · repeat' split
    all_goals simp_all

theorem ensureSandboxReady_some (env : RunEnv) {h1 : Handler} (hs : h1.sandbox.isSome) :
    (ensureSandboxReady env h1).h = h1 := by
  unfold ensureSandboxReady
  split
  · simp_all
  · repeat' split
    all_goals rfl

theorem runStart_eq_fail1 {env : RunEnv} {h : Handler} {e : GoError}
    (hfl : (ensureCode env h).flow = .fail e) :
    h.RunStart env = (.err e, (ensureCode env h).h, (ensureCode env h).evs) := by
  simp only [Handler.RunStart, hfl]

theorem runStart_eq_hang1 {env : RunEnv} {h : Handler}
    (hfl : (ensureCode env h).flow = .hang) :
    h.RunStart env = (.hang, (ensureCode env h).h, (ensureCode env h).evs) := by
  simp only [Handler.RunStart, hfl]

theorem runStart_eq_fail2 {env : RunEnv} {h : Handler} {e : GoError}
    (hfl1 : (ensureCode env h).flow = .ok)
    (hfl2 : (ensureSandboxReady env (ensureCode env h).h).flow = .fail e) :
    h.RunStart env = (.err e, (ensureSandboxReady env (ensureCode env h).h).h,
      (ensureCode env h).evs ++ (ensureSandboxReady env (ensureCode env h).h).evs) := by
  simp only [Handler.RunStart, hfl1, hfl2]

theorem runStart_eq_hang2 {env : RunEnv} {h : Handler}
    (hfl1 : (ensureCode env h).flow = .ok)
    (hfl2 : (ensureSandboxReady env (ensureCode env h).h).flow = .hang) :
    h.RunStart env = (.hang, (ensureSandboxReady env (ensureCode env h).h).h,
      (ensureCode env h).evs ++ (ensureSandboxReady env (ensureCode env h).h).evs) := by
  simp only [Handler.RunStart, hfl1, hfl2]

theorem runStart_eq_ok {env : RunEnv} {h : Handler} {s : Nat}
    (hfl1 : (ensureCode env h).flow = .ok)
    (hfl2 : (ensureSandboxReady env (ensureCode env h).h).flow = .ok)
    (hsb : (ensureSandboxReady env (ensureCode env h).h).h.sandbox = some s) :
    h.RunStart env =
      ((match env.channelRes s with
        | .error p => RunOutcome.err (.external p)
        | .ok c => RunOutcome.ok c),
       { (ensureSandboxReady env (ensureCode env h).h).h with
           state := .Running
           runners := (ensureSandboxReady env (ensureCode env h).h).h.runners + 1 },
       (ensureCode env h).evs ++ (ensureSandboxReady env (ensureCode env h).h).evs ++
         [Ev.admitEv]) := by
  simp only [Handler.RunStart, hfl1, hfl2, hsb]
  split <;> rfl

theorem runStart_ok_spec {h : Handler} {env : RunEnv} {c h' evs}
    (hrun : h.RunStart env = (.ok c, h', evs)) :
    h'.state = .Running ∧ h'.runners = h.runners + 1 ∧ h'.lastPull = true ∧
    h'.name = h.name ∧ ∃ s, h'.sandbox = some s ∧ env.channelRes s = .ok c := by
  obtain ⟨e1r, e1st, e1sb, e1n, e1ok, _, _⟩ := ensureCode_spec env h
  obtain ⟨e2r, e2l, e2n, _, e2ok, _⟩ := ensureSandboxReady_spec env (ensureCode env h).h
  cases hc1 : (ensureCode env h).flow with
  | fail e => rw [runStart_eq_fail1 hc1] at hrun; simp at hrun
  | hang => rw [runStart_eq_hang1 hc1] at hrun; simp at hrun
  | ok =>
    cases hc2 : (ensureSandboxReady env (ensureCode env h).h).flow with
    | fail e => rw [runStart_eq_fail2 hc1 hc2] at hrun; simp at hrun
    | hang => rw [runStart_eq_hang2 hc1 hc2] at hrun; simp at hrun
    | ok =>
      obtain ⟨s, hs⟩ := Option.isSome_iff_exists.mp (e2ok hc2)
      rw [runStart_eq_ok hc1 hc2 hs] at hrun
      cases hch : env.channelRes s with
      | error p => rw [hch] at hrun; simp at hrun
      | ok c0 =>
        rw [hch] at hrun
        injection hrun with hA hBC
        injection hBC with hB hC
        injection hA with hA
        subst hA
        subst hB
        refine ⟨rfl, ?_, ?_, ?_, s, hs, hch⟩
        · show (ensureSandboxReady env (ensureCode env h).h).h.runners + 1 = h.runners + 1
          rw [e2r, e1r]
        · show (ensureSandboxReady env (ensureCode env h).h).h.lastPull = true
          rw [e2l]; exact e1ok hc1
        · show (ensureSandboxReady env (ensureCode env h).h).h.name = h.name
          rw [e2n, e1n]

theorem runStart_err_spec {h : Handler} {env : RunEnv} {e h' evs}
    (hrun : h.RunStart env = (.err e, h', evs)) :
    h' = h ∨
    (h'.runners = h.runners ∧ h'.state = h.state ∧ h'.sandbox = h.sandbox ∧
      h'.lastPull = true ∧ h'.name = h.name) ∨
    (h.sandbox = none ∧ h'.runners = h.runners ∧ h'.lastPull = true ∧ h'.name = h.name ∧
      (h'.sandbox.isSome ∨ (h'.sandbox = none ∧ h'.state = h.state))) ∨
    (h'.runners = h.runners + 1 ∧ h'.state = .Running ∧ h'.sandbox.isSome ∧
      h'.lastPull = true ∧ h'.name = h.name) := by
  obtain ⟨e1r, e1st, e1sb, e1n, e1ok, e1fail, _⟩ := ensureCode_spec env h
  obtain ⟨e2r, e2l, e2n, _, e2ok, e2none⟩ := ensureSandboxReady_spec env (ensureCode env h).h
  cases hc1 : (ensureCode env h).flow with
  | fail e0 =>
    rw [runStart_eq_fail1 hc1] at hrun
    injection hrun with hA hBC
    injection hBC with hB hC
    left
    rw [← hB]
    exact e1fail e0 hc1
  | hang => rw [runStart_eq_hang1 hc1] at hrun; simp at hrun
  | ok =>
    cases hc2 : (ensureSandboxReady env (ensureCode env h).h).flow with
    | fail e0 =>
      rw [runStart_eq_fail2 hc1 hc2] at hrun
      injection hrun with hA hBC
      injection hBC with hB hC
      subst hB
      by_cases hpre : h.sandbox = none
      · right; right; left
        refine ⟨hpre, e2r.trans e1r, e2l.trans (e1ok hc1), e2n.trans e1n, ?_⟩
        cases hs2 : (ensureSandboxReady env (ensureCode env h).h).h.sandbox with
        | none =>
          refine Or.inr ⟨rfl, ?_⟩
          rw [e2none hs2, e1st]
        | some s =>
          left
          rfl
      · right; left
        have h1some : (ensureCode env h).h.sandbox.isSome := by
          rw [e1sb]
          exact Option.isSome_iff_ne_none.mpr hpre
        rw [ensureSandboxReady_some env h1some]
        exact ⟨e1r, e1st, e1sb, e1ok hc1, e1n⟩
    | hang => rw [runStart_eq_hang2 hc1 hc2] at hrun; simp at hrun
    | ok =>
      obtain ⟨s, hs⟩ := Option.isSome_iff_exists.mp (e2ok hc2)
      rw [runStart_eq_ok hc1 hc2 hs] at hrun
      cases hch : env.channelRes s with
      | ok c => rw [hch] at hrun; simp at hrun
      | error p =>
        rw [hch] at hrun
        injection hrun with hA hBC
        injection hBC with hB hC
        subst hB
        right; right; right
        refine ⟨?_, rfl, ?_, ?_, ?_⟩
        · show (ensureSandboxReady env (ensureCode env h).h).h.runners + 1 = h.runners + 1
          rw [e2r, e1r]
        · show (ensureSandboxReady env (ensureCode env h).h).h.sandbox.isSome
          rw [hs]
          rfl
        · show (ensureSandboxReady env (ensureCode env h).h).h.lastPull = true
          rw [e2l]; exact e1ok hc1
        · show (ensureSandboxReady env (ensureCode env h).h).h.name = h.name
          rw [e2n, e1n]

theorem runFinish_some_spec {h : Handler} (fenv : FinishEnv) {s : Nat}
    (hsb : h.sandbox = some s) :
    h.RunFinish fenv =
      (if h.runners - 1 = 0 then
        some ({ h with runners := h.runners - 1, state := .Paused },
              [Ev.sbPause, Ev.lruAddEv h.name])
      else some ({ h with runners := h.runners - 1 }, [])) := by
  simp only [Handler.RunFinish, hsb]

/-! Preservation of the invariant along reachable steps. -/

theorem invN_init (name workerDir : String) : InvN (initialHandler name workerDir) 0 := by
  refine ⟨by simp [initialHandler], by simp [initialHandler], ?_, ?_, ?_⟩
  · intro hlt
    simp [initialHandler] at hlt
  · intro hsb
    simp [initialHandler] at hsb
  · intro _
    rfl

theorem invN_startOk {h : Handler} {n : Nat} {env c h' evs} (hi : InvN h n)
    (hrun : h.RunStart env = (.ok c, h', evs)) : InvN h' (n + 1) := by
  obtain ⟨hst, hr, hl, _, s, hsb, _⟩ := runStart_ok_spec hrun
  obtain ⟨i1, i2, _, _, _⟩ := hi
  refine ⟨?_, ?_, ?_, ?_, ?_⟩
  · rw [hr]; push_cast; omega
  · rw [hr]; omega
  · intro _
    exact ⟨hst, by rw [hsb]; rfl⟩
  · intro _
    exact hl
  · intro hx
    rw [hx] at hsb
    cases hsb

theorem invN_startErr {h : Handler} {n : Nat} {env e h' evs} (hi : InvN h n)
    (hrun : h.RunStart env = (.err e, h', evs)) : InvN h' n := by
  obtain ⟨i1, i2, i3, i4, i5⟩ := hi
  rcases runStart_err_spec hrun with rfl | ⟨hr, hst, hsb, hl, _⟩ |
    ⟨hpre, hr, hl, _, hdisj⟩ | ⟨hr, hst, hsb, hl, _⟩
  · exact ⟨i1, i2, i3, i4, i5⟩
  · refine ⟨by rw [hr]; exact i1, by rw [hr]; exact i2, ?_, ?_, ?_⟩
    · intro hlt
      rw [hr] at hlt
      obtain ⟨ha, hb⟩ := i3 hlt
      exact ⟨hst.trans ha, by rw [hsb]; exact hb⟩
    · intro _
      exact hl
    · intro hx
      rw [hsb] at hx
      exact hst.trans (i5 hx)
  · have hz : h.runners = 0 := by
      rcases lt_or_le 0 h.runners with hlt | hle
      · obtain ⟨_, hsome⟩ := i3 hlt
        rw [hpre] at hsome
        cases hsome
      · omega
    have hn0 : n = 0 := by
      rw [hz] at i1
      exact_mod_cast Nat.le_zero.mp (by exact_mod_cast i1)
    refine ⟨?_, ?_, ?_, ?_, ?_⟩
    · rw [hr, hz, hn0]; rfl
    · rw [hr, hz]
    · intro hlt
      rw [hr, hz] at hlt
      omega
    · intro _
      exact hl
    · intro hx
      rcases hdisj with hsome | ⟨_, hstq⟩
      · rw [hx] at hsome
        cases hsome
      · exact hstq.trans (i5 hpre)
  · refine ⟨?_, ?_, ?_, ?_, ?_⟩
    · rw [hr]; omega
    · rw [hr]; omega
    · intro _
      exact ⟨hst, hsb⟩
    · intro _
      exact hl
    · intro hx
      rw [hx] at hsb
      cases hsb

theorem invN_finish {h : Handler} {n : Nat} {fenv h' evs} (hi : InvN h (n + 1))
    (hfin : h.RunFinish fenv = some (h', evs)) : InvN h' n := by
  obtain ⟨i1, i2, i3, i4, i5⟩ := hi
  have hpos : 0 < h.runners := by push_cast at i1; omega
  obtain ⟨hrun, hsome⟩ := i3 hpos
  obtain ⟨s, hs⟩ := Option.isSome_iff_exists.mp hsome
  rw [runFinish_some_spec fenv hs] at hfin
  split at hfin
  · rename_i hzero
    injection hfin with hfin
    injection hfin with hH hE
    subst hH
    refine ⟨?_, ?_, ?_, ?_, ?_⟩
    · show (n : Int) ≤ h.runners - 1
      push_cast at i1 ⊢
      omega
    · show (0 : Int) ≤ h.runners - 1
      omega
    · intro hlt
      rw [show ({ h with runners := h.runners - 1, state := .Paused } : Handler).runners
          = h.runners - 1 from rfl, hzero] at hlt
      omega
    · intro _
      exact i4 hsome
    · intro hx
      rw [show ({ h with runners := h.runners - 1, state := .Paused } : Handler).sandbox
          = h.sandbox from rfl, hs] at hx
      cases hx
  · rename_i hnz
    injection hfin with hfin
    injection hfin with hH hE
    subst hH
    refine ⟨?_, ?_, ?_, ?_, ?_⟩
    · show (n : Int) ≤ h.runners - 1
      push_cast at i1 ⊢
      omega
    · show (0 : Int) ≤ h.runners - 1
      omega
    · intro _
      exact ⟨hrun, hsome⟩
    · intro _
      exact i4 hsome
    · intro hx
      rw [show ({ h with runners := h.runners - 1 } : Handler).sandbox
          = h.sandbox from rfl, hs] at hx
      cases hx

/-- Every reachable Handler satisfies the invariant. -/
theorem reachableN_inv {h : Handler} {n : Nat} (hr : ReachableN h n) : InvN h n := by
  induction hr with
  | init name workerDir => exact invN_init name workerDir
  | startOk _ hrun ih => exact invN_startOk ih hrun
  | startErr _ hrun ih => exact invN_startErr ih hrun
  | finish _ hfin ih => exact invN_finish ih hfin

/-! Evaluation lemmas used to compute RunStart on constrained environments. -/

theorem ensureCode_pulled {env : RunEnv} {h : Handler} (hlp : h.lastPull = true) :
    ensureCode env h = ⟨h, .ok, []⟩ := by
  simp [ensureCode, hlp]

theorem ensureCode_pull_fail {env : RunEnv} {h : Handler} {p : Nat}
    (hlp : h.lastPull = false) (hp : env.pullRes = .error p) :
    ensureCode env h = ⟨h, .fail (.external p), [.pull]⟩ := by
  simp [ensureCode, hlp, hp]

theorem ensureCode_sandboxDir (env : RunEnv) (h : Handler) :
    (ensureCode env h).h.sandboxDir = h.sandboxDir := by
  unfold ensureCode
  repeat' split
  all_goals rfl

theorem mkdirStep_ok {env : RunEnv} (h : Handler) (hm : env.mkdirRes = none) :
    mkdirStep env h = ⟨h, .ok, [.mkdirEv]⟩ := by
  simp [mkdirStep, hm]

theorem mkdirStep_fail {env : RunEnv} (h : Handler) {m : Nat} (hm : env.mkdirRes = some m) :
    mkdirStep env h = ⟨h, .fail (.external m), [.mkdirEv]⟩ := by
  simp [mkdirStep, hm]

theorem createStep_fail {env : RunEnv} (h : Handler) {c : Nat}
    (hc : env.createRes = .error c) :
    createStep env h = ⟨h, .fail (.external c), [.sbCreate]⟩ := by
  simp [createStep, hc]

theorem createStep_ok {env : RunEnv} (h : Handler) {s : Nat}
    (hc : env.createRes = .ok s) (hst : (env.stateRes s).2 = none) :
    createStep env h =
      ⟨{ h with sandbox := some s, state := (env.stateRes s).1 }, .ok,
        [.sbCreate, .sbStateEv]⟩ := by
  simp [createStep, hc, hst]

theorem bringRunning_ok {env : RunEnv} (h : Handler)
    (hstart : env.startRes = none) (hunp : env.unpauseRes = none) :
    (bringRunning env h).flow = .ok := by
  unfold bringRunning
  repeat' split
  all_goals simp_all

theorem poolStep_ok {env : RunEnv} (h : Handler)
    (hpool : env.poolConfigured = false ∨
      (env.isContainer = true ∧ ∃ z, env.provisionRes = .ok z)) :
    (poolStep env h).flow = .ok := by
  unfold poolStep
  rcases hpool with hp | ⟨hc, z, hz⟩
  · simp [hp]
  · rcases z with ⟨fsr, hit⟩
    simp only [hc, hz]
    split <;> rfl

theorem poolStep_sandboxDir (env : RunEnv) (h : Handler) :
    (poolStep env h).h.sandboxDir = h.sandboxDir := by
  unfold poolStep
  repeat' split
  all_goals rfl

theorem sockStep_timeout {env : RunEnv} {h : Handler}
    (hs : (sockLoop (env.statEx (sockPath h.sandboxDir)) env.elapsed env.sockFuel 0).1
      = some false) :
    (sockStep env h).flow = .fail initTimeoutErr := by
  simp only [sockStep]
  rw [hs]

theorem sockStep_ready {env : RunEnv} {h : Handler}
    (hs : (sockLoop (env.statEx (sockPath h.sandboxDir)) env.elapsed env.sockFuel 0).1
      = some true) :
    (sockStep env h).flow = .ok := by
  simp only [sockStep]
  rw [hs]

theorem ensureSandboxReady_create {env : RunEnv} {h : Handler} (hsb : h.sandbox = none) :
    ensureSandboxReady env h = createPath env h := by
  simp [ensureSandboxReady, hsb]

theorem ensureSandboxReady_paused_ok {env : RunEnv} {h : Handler} {s : Nat}
    (hsb : h.sandbox = some s) (hst : h.state = .Paused) (hu : env.unpauseRes = none) :
    ensureSandboxReady env h = ⟨h, .ok, [Ev.hhit, Ev.sbUnpause, Ev.lruRemoveEv h.name]⟩ := by
  simp [ensureSandboxReady, hsb, hst, hu]

theorem ensureSandboxReady_paused_fail {env : RunEnv} {h : Handler} {s p : Nat}
    (hsb : h.sandbox = some s) (hst : h.state = .Paused) (hu : env.unpauseRes = some p) :
    ensureSandboxReady env h = ⟨h, .fail (.external p), [Ev.hhit, Ev.sbUnpause]⟩ := by
  simp [ensureSandboxReady, hsb, hst, hu]

/-- The readiness loop returns the timeout decision exactly when no probe
observes the marker while the elapsed time is still within the 45-second
bound, provided elapsed time is monotone over probes. -/
theorem sockLoop_timeout_iff {ex : Nat → Bool} {el : Nat → ℚ}
    (hmono : ∀ i j, i ≤ j → el i ≤ el j) :
    ∀ (fuel i : Nat) (r : Bool), (sockLoop ex el fuel i).1 = some r →
      (r = false ↔ ¬ ∃ j, i ≤ j ∧ el j ≤ 45 ∧ ex j = true) := by
  intro fuel
  induction fuel with
  | zero =>
    intro i r hr
    simp [sockLoop] at hr
  | succ fuel ih =>
    intro i r hr
    by_cases h45 : 45 < el i
    · have hr' : r = false := by
        simp [sockLoop, h45] at hr
        exact hr
      subst hr'
      refine iff_of_true rfl ?_
      rintro ⟨j, hij, hj45, _⟩
      exact absurd hj45 (not_le.mpr (lt_of_lt_of_le h45 (hmono i j hij)))
    · by_cases hex : ex i = true
      · have hr' : r = true := by
          simp [sockLoop, h45, hex] at hr
          exact hr
        subst hr'
        refine iff_of_false (by simp) ?_
        exact not_not_intro ⟨i, le_refl i, le_of_not_lt h45, hex⟩
      · have hrec : (sockLoop ex el fuel (i + 1)).1 = some r := by
          simpa [sockLoop, h45, hex] using hr
        rw [ih (i + 1) r hrec]
        constructor
        · intro hno
          rintro ⟨j, hij, hj45, hjex⟩
          rcases Nat.eq_or_lt_of_le hij with hji | hji
          · exact hex (hji ▸ hjex)
          · exact hno ⟨j, hji, hj45, hjex⟩
        · intro hno
          rintro ⟨j, hij, hj45, hjex⟩
          exact hno ⟨j, Nat.le_of_succ_le hij, hj45, hjex⟩

theorem lookup_mapInsert_self (m : List (String × Option Handler)) (k : String)
    (v : Option Handler) : (mapInsert m k v).lookup k = some v := by
  induction m with
  | nil => simp [mapInsert]
  | cons kv t ih =>
    obtain ⟨k', v'⟩ := kv
    unfold mapInsert
    by_cases hk : k' = k
    · simp [hk, List.lookup]
    · have hbf : (k == k') = false := beq_eq_false_iff_ne.mpr (Ne.symm hk)
      simp [hk, List.lookup, ih, hbf]

/-- C3: along every operation sequence starting from the Handler built by
Get, in which every RunFinish is matched by a preceding successful
RunStart, the runner count never goes negative and a positive runner
count forces the Running state. -/
theorem claim_C3 {h : Handler} {n : Nat} (hr : ReachableN h n) :
    0 ≤ h.runners ∧ (0 < h.runners → h.state = .Running) := by
  obtain ⟨_, i2, i3, _, _⟩ := reachableN_inv hr
  exact ⟨i2, fun hlt => (i3 hlt).1⟩

/-- C3 witness at the freshly created Handler. -/
theorem claim_C3_witness :
    0 ≤ (initialHandler "f" "/w").runners ∧
    (0 < (initialHandler "f" "/w").runners → (initialHandler "f" "/w").state = .Running) :=
  claim_C3 (ReachableN.init "f" "/w")

/-- C5: every RunStart call on a reachable Handler that returns without an
error leaves the Handler Running with at least one runner, and returns the
value produced by the Channel call on the Handler's sandbox. -/
theorem claim_C5 {h : Handler} {n : Nat} {env : RunEnv} {c h' evs}
    (hr : ReachableN h n) (hrun : h.RunStart env = (.ok c, h', evs)) :
    h'.state = .Running ∧ 1 ≤ h'.runners ∧
    ∃ s, h'.sandbox = some s ∧ env.channelRes s = .ok c := by
  obtain ⟨hst, hrv, _, _, s, hsb, hch⟩ := runStart_ok_spec hrun
  obtain ⟨_, i2, _, _, _⟩ := reachableN_inv hr
  refine ⟨hst, ?_, s, hsb, hch⟩
  rw [hrv]
  omega

/-- C4: RunFinish decrements runners; at zero it pauses the sandbox,
ignoring a pause failure, sets the state to Paused and adds the Handler at
the most-recently-paused LRU position; at a still-positive count it makes
no state change. -/
theorem claim_C4 {h : Handler} {s : Nat} (fenv : FinishEnv) (hsb : h.sandbox = some s) :
    ∃ h' evs, h.RunFinish fenv = some (h', evs) ∧
      h'.runners = h.runners - 1 ∧ h'.sandbox = h.sandbox ∧
      (∀ fenv2, h.RunFinish fenv2 = h.RunFinish fenv) ∧
      (h.runners - 1 = 0 →
        h'.state = .Paused ∧ evs = [Ev.sbPause, Ev.lruAddEv h.name] ∧
        ∀ l, (lruAdd l h.name).head? = some h.name) ∧
      (0 < h.runners - 1 → h'.state = h.state ∧ evs = []) := by
  by_cases h0 : h.runners - 1 = 0
  · refine ⟨{ h with runners := h.runners - 1, state := .Paused },
      [Ev.sbPause, Ev.lruAddEv h.name], ?_, rfl, rfl, ?_, ?_, ?_⟩
    · rw [runFinish_some_spec fenv hsb, if_pos h0]
    · intro fenv2
      rw [runFinish_some_spec fenv2 hsb, runFinish_some_spec fenv hsb]
    · intro _
      exact ⟨rfl, rfl, fun l => rfl⟩
    · intro hpos
      omega
  · refine ⟨{ h with runners := h.runners - 1 }, [], ?_, rfl, rfl, ?_, ?_, ?_⟩
    · rw [runFinish_some_spec fenv hsb, if_neg h0]
    · intro fenv2
      rw [runFinish_some_spec fenv2 hsb, runFinish_some_spec fenv hsb]
    · intro hz
      exact absurd hz h0
    · intro _
      exact ⟨rfl, rfl⟩

/-- C7: Get is a total get-or-insert on the registry: an absent name gets
a fresh Uninitialized Handler with zero runners and no sandbox, the
returned Handler is the one stored under the name, and an immediately
repeated Get returns the same Handler with the registry unchanged. -/
theorem claim_C7 (hs : HandlerSet) (name : String) :
    (mapGet hs.handlers name = none →
      (hs.Get name).1.state = .Unitialized ∧ (hs.Get name).1.runners = 0 ∧
      (hs.Get name).1.sandbox = none ∧ (hs.Get name).1.name = name) ∧
    mapGet (hs.Get name).2.handlers name = some (hs.Get name).1 ∧
    (hs.Get name).2.Get name = ((hs.Get name).1, (hs.Get name).2) := by
  cases hg : mapGet hs.handlers name with
  | some hd =>
    have hGet : hs.Get name = (hd, hs) := by simp [HandlerSet.Get, hg]
    rw [hGet]
    refine ⟨?_, hg, ?_⟩
    · intro hnone
      simp at hnone
    · simp [HandlerSet.Get, hg]
  | none =>
    have hGet : hs.Get name =
        (initialHandler name hs.workerDir,
         { hs with handlers :=
            mapInsert hs.handlers name (some (initialHandler name hs.workerDir)) }) := by
      simp [HandlerSet.Get, hg]
    rw [hGet]
    have hmg : mapGet
        (mapInsert hs.handlers name (some (initialHandler name hs.workerDir))) name
        = some (initialHandler name hs.workerDir) := by
      unfold mapGet
      rw [lookup_mapInsert_self]
    refine ⟨?_, hmg, ?_⟩
    · intro _
      exact ⟨rfl, rfl, rfl, rfl⟩
    · simp [HandlerSet.Get, hmg]

/-- C7 witness on the empty registry. -/
theorem claim_C7_witness :
    ((HandlerSet.Get { handlers := [], workerDir := "/w" } "f").1.state = .Unitialized ∧
     (HandlerSet.Get { handlers := [], workerDir := "/w" } "f").1.runners = 0 ∧
     (HandlerSet.Get { handlers := [], workerDir := "/w" } "f").1.sandbox = none ∧
     (HandlerSet.Get { handlers := [], workerDir := "/w" } "f").1.name = "f") ∧
    (HandlerSet.Get { handlers := [], workerDir := "/w" } "f").2.Get "f" =
      ((HandlerSet.Get { handlers := [], workerDir := "/w" } "f").1,
       (HandlerSet.Get { handlers := [], workerDir := "/w" } "f").2) :=
  ⟨(claim_C7 { handlers := [], workerDir := "/w" } "f").1 rfl,
   (claim_C7 { handlers := [], workerDir := "/w" } "f").2.2⟩

/-- C2: on a reachable Handler whose sandbox exists and is Paused,
RunStart neither pulls code nor creates a sandbox; it bumps the
handler-hit counter once, calls Unpause on the existing sandbox, and on
Unpause success removes the Handler from the LRU before the admission
point. -/
theorem claim_C2 {h : Handler} {n : Nat} {s : Nat} (hr : ReachableN h n)
    (hsb : h.sandbox = some s) (hst : h.state = .Paused) (env : RunEnv) :
    Ev.pull ∉ (h.RunStart env).2.2 ∧
    Ev.sbCreate ∉ (h.RunStart env).2.2 ∧
    (h.RunStart env).2.2.count Ev.hhit = 1 ∧
    Ev.sbUnpause ∈ (h.RunStart env).2.2 ∧
    (h.RunStart env).2.1.sandbox = h.sandbox ∧
    (env.unpauseRes = none →
      (h.RunStart env).2.2 =
        [Ev.hhit, Ev.sbUnpause, Ev.lruRemoveEv h.name, Ev.admitEv]) := by
  have hlp : h.lastPull = true := (reachableN_inv hr).2.2.2.1 (by rw [hsb]; rfl)
  have hec := @ensureCode_pulled env h hlp
  cases hu : env.unpauseRes with
  | none =>
    have hes := @ensureSandboxReady_paused_ok env h s hsb hst hu
    cases hch : env.channelRes s with
    | ok c =>
      have hrun : h.RunStart env =
          (.ok c, { h with state := .Running, runners := h.runners + 1 },
           [Ev.hhit, Ev.sbUnpause, Ev.lruRemoveEv h.name, Ev.admitEv]) := by
        simp [Handler.RunStart, hec, hes, hsb, hch]
      rw [hrun]
      refine ⟨by simp, by simp, rfl, by simp, rfl, fun _ => rfl⟩
    | error p =>
      have hrun : h.RunStart env =
          (.err (.external p), { h with state := .Running, runners := h.runners + 1 },
           [Ev.hhit, Ev.sbUnpause, Ev.lruRemoveEv h.name, Ev.admitEv]) := by
        simp [Handler.RunStart, hec, hes, hsb, hch]
      rw [hrun]
      refine ⟨by simp, by simp, rfl, by simp, rfl, fun _ => rfl⟩
  | some p =>
    have hes := @ensureSandboxReady_paused_fail env h s p hsb hst hu
    have hrun : h.RunStart env =
        (.err (.external p), h, [Ev.hhit, Ev.sbUnpause]) := by
      simp [Handler.RunStart, hec, hes]
    rw [hrun]
    refine ⟨by simp, by simp, rfl, by simp, rfl, ?_⟩
    intro hnone
    simp at hnone

/-- C8: a failed registry pull surfaces its error with the Handler
untouched (lastPull still unset, no sandbox); after a successful code
step, a sandbox-directory or factory Create failure surfaces its error
while the Handler keeps no sandbox and stays Uninitialized. -/
theorem claim_C8 {h : Handler} {n : Nat} (hr : ReachableN h n) (env : RunEnv) :
    (∀ p, h.lastPull = false → env.pullRes = .error p →
      h.RunStart env = (.err (.external p), h, [Ev.pull])) ∧
    (h.sandbox = none → (ensureCode env h).flow = .ok →
      (∀ m, env.mkdirRes = some m →
        (h.RunStart env).1 = .err (.external m) ∧
        (h.RunStart env).2.1.sandbox = none ∧
        (h.RunStart env).2.1.state = .Unitialized) ∧
      (∀ c, env.mkdirRes = none → env.createRes = .error c →
        (h.RunStart env).1 = .err (.external c) ∧
        (h.RunStart env).2.1.sandbox = none ∧
        (h.RunStart env).2.1.state = .Unitialized)) := by
  obtain ⟨_, _, _, _, i5⟩ := reachableN_inv hr
  constructor
  · intro p hlp hp
    have hec := @ensureCode_pull_fail env h p hlp hp
    have hfl : (ensureCode env h).flow = .fail (.external p) := by rw [hec]
    rw [runStart_eq_fail1 hfl, hec]
  · intro hsb hfc
    obtain ⟨_, e1st, e1sb, _, _, _, _⟩ := ensureCode_spec env h
    have h1sb : (ensureCode env h).h.sandbox = none := by rw [e1sb, hsb]
    have h1st : (ensureCode env h).h.state = .Unitialized := by
      rw [e1st]
      exact i5 hsb
    have hcre := @ensureSandboxReady_create env (ensureCode env h).h h1sb
    constructor
    · intro m hm
      have hmk := @mkdirStep_fail env (ensureCode env h).h m hm
      have hcp : createPath env (ensureCode env h).h =
          ⟨(ensureCode env h).h, .fail (.external m), [Ev.mkdirEv]⟩ := by
        unfold createPath
        rw [hmk, andThen_notok _ (by simp)]
      have hfl2 : (ensureSandboxReady env (ensureCode env h).h).flow
          = .fail (.external m) := by
        rw [hcre, hcp]
      have hrun := runStart_eq_fail2 hfc hfl2
      rw [hrun, hcre, hcp]
      exact ⟨rfl, h1sb, h1st⟩
    · intro c hm hc
      have hmk := @mkdirStep_ok env (ensureCode env h).h hm
      have hcs := @createStep_fail env (ensureCode env h).h c hc
      have hcp : createPath env (ensureCode env h).h =
          ⟨(ensureCode env h).h, .fail (.external c), [Ev.mkdirEv, Ev.sbCreate]⟩ := by
        unfold createPath
        rw [hmk, andThen_ok _ rfl]
        simp only [hcs, andThen_notok _ (by simp : (⟨(ensureCode env h).h, .fail (.external c),
          [Ev.sbCreate]⟩ : StepOut).flow ≠ .ok)]
        rfl
      have hfl2 : (ensureSandboxReady env (ensureCode env h).h).flow
          = .fail (.external c) := by
        rw [hcre, hcp]
      have hrun := runStart_eq_fail2 hfc hfl2
      rw [hrun, hcre, hcp]
      exact ⟨rfl, h1sb, h1st⟩

/-- C6: on the sandbox-creation path with all earlier steps succeeding,
RunStart returns the initialization-timeout error exactly when no stat
probe observes the marker <sandboxDir>/ol.sock while the elapsed time is
still within the 45-second bound; when a probe sees the marker within the
bound, RunStart proceeds without that error. -/
theorem claim_C6 {env : RunEnv} {h : Handler} {s : Nat} {r : Bool}
    (hsb : h.sandbox = none)
    (hfc : (ensureCode env h).flow = .ok)
    (hmk : env.mkdirRes = none)
    (hcr : env.createRes = .ok s)
    (hstE : (env.stateRes s).2 = none)
    (hstart : env.startRes = none)
    (hunp : env.unpauseRes = none)
    (hpool : env.poolConfigured = false ∨
      (env.isContainer = true ∧ ∃ z, env.provisionRes = .ok z))
    (hmono : ∀ i j, i ≤ j → env.elapsed i ≤ env.elapsed j)
    (hsl : (sockLoop (env.statEx (sockPath h.sandboxDir)) env.elapsed env.sockFuel 0).1
      = some r) :
    ((h.RunStart env).1 = .err initTimeoutErr ↔
      ¬ ∃ j, env.elapsed j ≤ 45 ∧ env.statEx (sockPath h.sandboxDir) j = true) := by
  obtain ⟨_, _, e1sb, _, _, _, _⟩ := ensureCode_spec env h
  have h1sb : (ensureCode env h).h.sandbox = none := by rw [e1sb, hsb]
  have hcre := @ensureSandboxReady_create env (ensureCode env h).h h1sb
  have hcsf : (createStep env (ensureCode env h).h).flow = .ok := by
    rw [createStep_ok _ hcr hstE]
  have hflow : (createPath env (ensureCode env h).h).flow =
      (sockStep env (poolStep env (createStep env (ensureCode env h).h).h).h).flow := by
    unfold createPath
    rw [mkdirStep_ok _ hmk, andThen_ok _ rfl]
    dsimp only
    rw [andThen_ok _ hcsf]
    dsimp only
    rw [andThen_ok _ (bringRunning_ok _ hstart hunp), bringRunning_h]
    dsimp only
    rw [andThen_ok _ (poolStep_ok _ hpool)]
  have hsd : (poolStep env
      (createStep env (ensureCode env h).h).h).h.sandboxDir = h.sandboxDir := by
    rw [poolStep_sandboxDir, createStep_sandboxDir, ensureCode_sandboxDir]
  cases r with
  | false =>
    have hsl2 : (sockLoop (env.statEx (sockPath (poolStep env
        (createStep env (ensureCode env h).h).h).h.sandboxDir)) env.elapsed
        env.sockFuel 0).1 = some false := by
      rw [hsd]
      exact hsl
    have hfl2 : (ensureSandboxReady env (ensureCode env h).h).flow
        = .fail initTimeoutErr := by
      rw [hcre, hflow]
      exact sockStep_timeout hsl2
    have hrun := runStart_eq_fail2 hfc hfl2
    have hNo : ¬ ∃ j, env.elapsed j ≤ 45 ∧
        env.statEx (sockPath h.sandboxDir) j = true := by
      have hiff := (sockLoop_timeout_iff hmono env.sockFuel 0 false hsl).mp rfl
      rintro ⟨j, hj1, hj2⟩
      exact hiff ⟨j, Nat.zero_le j, hj1, hj2⟩
    rw [hrun]
    exact iff_of_true rfl hNo
  | true =>
    have hsl2 : (sockLoop (env.statEx (sockPath (poolStep env
        (createStep env (ensureCode env h).h).h).h.sandboxDir)) env.elapsed
        env.sockFuel 0).1 = some true := by
      rw [hsd]
      exact hsl
    have hfl2 : (ensureSandboxReady env (ensureCode env h).h).flow = .ok := by
      rw [hcre, hflow]
      exact sockStep_ready hsl2
    obtain ⟨s2, hs2⟩ := Option.isSome_iff_exists.mp
      ((ensureSandboxReady_spec env (ensureCode env h).h).2.2.2.2.1 hfl2)
    have hrun := runStart_eq_ok hfc hfl2 hs2
    have hEx : ∃ j, env.elapsed j ≤ 45 ∧
        env.statEx (sockPath h.sandboxDir) j = true := by
      by_contra hno
      have hiff := (sockLoop_timeout_iff hmono env.sockFuel 0 true hsl).mpr
        (by rintro ⟨j, _, hj1, hj2⟩; exact hno ⟨j, hj1, hj2⟩)
      cases hiff
    have hne : (h.RunStart env).1 ≠ .err initTimeoutErr := by
      rw [hrun]
      cases hch : env.channelRes s2 <;> simp [hch, initTimeoutErr]
    exact iff_of_false hne (not_not_intro hEx)

/-! Remaining claims: the lock discipline of the orphan reaper, the
busy-spin of the readiness poll loop, and nil values in the registry map,
each settled by evaluating the model on an explicit input. -/

/-- C1 evaluated on the code: one reaper scan over a single orphan
violates every part of the claimed lock discipline.  The deferred
registry unlock of line 128 runs only at function return, which the
infinite loop never reaches, so the scan trace carries no registry
unlock: the lock is still held at the end of the scan, the unlink step of
line 133 acquires the registry lock while already holding it, and the
drain wait of lines 137-141 runs with the registry lock held.  Even two
orphan-free scans in sequence re-acquire the still-held lock. -/
theorem claim_C1 :
    scanLockDiscipline (killOrphansScan [orphanH]) = false ∧
    noReentrantRegFrom 0 (killOrphansScan [orphanH]) = false ∧
    regReleasedByEnd (killOrphansScan [orphanH]) = false ∧
    regFreeAtDrainFrom 0 (killOrphansScan [orphanH]) = false ∧
    noReentrantRegFrom 0 (killOrphansLoop [[], []]) = false := by decide

/-- C9 evaluated on the code: with the marker absent for two probes, the
creation path returns the timeout error after three back-to-back stat
probes with no sleep event anywhere in the trace: the poll loop spins
without yielding (the loop body of lines 230-235 contains no sleep). -/
theorem claim_C9 :
    (hPulled.RunStart envSpin).1 = .err initTimeoutErr ∧
    sleepBetweenStats (hPulled.RunStart envSpin).2.2 = false ∧
    Ev.sleepEv ∉ (hPulled.RunStart envSpin).2.2 := by decide

/-- C10 evaluated on the code: the reaper's unlink of line 134 stores a
nil pointer under the name instead of deleting the key, so the map keeps
a nil-valued entry that the next Dump or reaper scan would visit and
dereference; reading the slot back through the map index still yields
nil. -/
theorem claim_C10 :
    rangeValuesNonNil [("f", some orphanH)] = true ∧
    reapUnlink [("f", some orphanH)] "f" = [("f", none)] ∧
    rangeValuesNonNil (reapUnlink [("f", some orphanH)] "f") = false ∧
    mapGet (reapUnlink [("f", some orphanH)] "f") "f" = none := by decide

/-- C5 witness: a concrete first RunStart under envOk. -/
theorem claim_C5_witness :
    hA.state = .Running ∧ 1 ≤ hA.runners ∧
    ∃ s, hA.sandbox = some s ∧ envOk.channelRes s = .ok 7 :=
  claim_C5 (ReachableN.init "f" "/w")
    (show (initialHandler "f" "/w").RunStart envOk =
      (.ok 7, hA, [Ev.pull, Ev.mkdirEv, Ev.sbCreate, Ev.sbStateEv, Ev.missEv,
        Ev.sockStat, Ev.admitEv]) by decide)

/-- The paused Handler hP is reachable: one successful RunStart under
envOk followed by its matching RunFinish. -/
theorem reachable_hP : ReachableN hP 0 :=
  ReachableN.finish
    (ReachableN.startOk (ReachableN.init "f" "/w")
      (show (initialHandler "f" "/w").RunStart envOk =
        (.ok 7, hA, [Ev.pull, Ev.mkdirEv, Ev.sbCreate, Ev.sbStateEv, Ev.missEv,
          Ev.sockStat, Ev.admitEv]) by decide))
    (show hA.RunFinish ⟨none⟩ = some (hP, [Ev.sbPause, Ev.lruAddEv "f"]) by decide)

/-- C2 witness: RunStart on the reachable paused Handler hP under envOk. -/
theorem claim_C2_witness :
    Ev.pull ∉ (hP.RunStart envOk).2.2 ∧
    Ev.sbCreate ∉ (hP.RunStart envOk).2.2 ∧
    (hP.RunStart envOk).2.2.count Ev.hhit = 1 ∧
    Ev.sbUnpause ∈ (hP.RunStart envOk).2.2 ∧
    (hP.RunStart envOk).2.1.sandbox = hP.sandbox ∧
    (envOk.unpauseRes = none →
      (hP.RunStart envOk).2.2 =
        [Ev.hhit, Ev.sbUnpause, Ev.lruRemoveEv hP.name, Ev.admitEv]) :=
  claim_C2 reachable_hP rfl rfl envOk

/-- C4 witness: RunFinish on the running Handler hA. -/
theorem claim_C4_witness :
    ∃ h' evs, hA.RunFinish ⟨none⟩ = some (h', evs) ∧
      h'.runners = hA.runners - 1 ∧ h'.sandbox = hA.sandbox ∧
      (∀ fenv2, hA.RunFinish fenv2 = hA.RunFinish ⟨none⟩) ∧
      (hA.runners - 1 = 0 →
        h'.state = .Paused ∧ evs = [Ev.sbPause, Ev.lruAddEv hA.name] ∧
        ∀ l, (lruAdd l hA.name).head? = some hA.name) ∧
      (0 < hA.runners - 1 → h'.state = hA.state ∧ evs = []) :=
  claim_C4 ⟨none⟩ rfl

/-- C6 witness: under envReady the marker appears at the third probe,
within the bound, so RunStart does not return the timeout error. -/
theorem claim_C6_witness :
    ((hPulled.RunStart envReady).1 = .err initTimeoutErr ↔
      ¬ ∃ j, envReady.elapsed j ≤ 45 ∧
        envReady.statEx (sockPath hPulled.sandboxDir) j = true) :=
  @claim_C6 envReady hPulled 1 true rfl rfl rfl rfl rfl rfl rfl (Or.inl rfl)
    (fun i j hij => Nat.cast_le.mpr hij) (by decide)

/-- C8 witness: a failed pull under envPullFail surfaces the error with
the fresh Handler unchanged. -/
theorem claim_C8_witness :
    (initialHandler "f" "/w").RunStart envPullFail =
      (.err (.external 5), initialHandler "f" "/w", [Ev.pull]) :=
  (claim_C8 (ReachableN.init "f" "/w") envPullFail).1 5 rfl rfl

end OpenLambda
